import Mathlib

/-!
Shallow embedding of the resilience primitives of the gin-example repository:
the circuit breaker (internal/pkg/circuitbreaker/circuitbreaker.go), the
sliding-window rate limiter (internal/pkg/ratelimit/middleware.go), the local
LRU cache and the multi-level cache (internal/pkg/cache/local.go,
internal/pkg/cache/redis.go, internal/pkg/stress/stress.go), and the
etcd-backed load balancer (internal/pkg/loadbalancer/loadbalancer.go).

Go `time.Time` and `time.Duration` are embedded as `Int` (a fixed unit, e.g.
nanoseconds); Go `int` as `Int`; the `int32` round-robin counter as an `Int`
wrapped into the two's-complement range of 32 bits.  Go errors are embedded
as explicit sum types.  Mutating methods become functions from the receiver
state to the updated state.
-/

/-! ## Circuit breaker (circuitbreaker.go) -/

/-- State of the breaker: Closed / Open / HalfOpen (circuitbreaker.go:12-21). -/
inductive CBState where
  | Closed : CBState
  | Open : CBState
  | HalfOpen : CBState
deriving DecidableEq, Repr

/-- The CircuitBreaker struct (circuitbreaker.go:38-62).  The mutex is a
concurrency artifact and is not part of the sequential state. -/
structure CircuitBreaker where
  failureThreshold : Int
  timeout : Int
  resetTimeout : Int
  successThreshold : Int
  state : CBState
  failureCount : Int
  lastFailure : Int
  trippedTime : Int
  successCount : Int
  requestCount : Int
  totalSuccess : Int
  totalFailure : Int
  serviceName : String
deriving DecidableEq, Repr

/-- The Config struct (circuitbreaker.go:65-71). -/
structure CBConfig where
  FailureThreshold : Int
  Timeout : Int
  ResetTimeout : Int
  SuccessThreshold : Int
  ServiceName : String
deriving DecidableEq, Repr

/-- DefaultConfig (circuitbreaker.go:74-82); durations in nanoseconds. -/
def CBDefaultConfig : CBConfig :=
  { FailureThreshold := 5
    Timeout := 60 * 1000000000
    ResetTimeout := 30 * 1000000000
    SuccessThreshold := 1
    ServiceName := "unknown" }

/-- NewCircuitBreaker (circuitbreaker.go:85-103): a nil config is replaced by
the default config; otherwise the config fields are copied verbatim, with no
validation.  The zero `time.Time` is embedded as 0. -/
def NewCircuitBreaker (config : Option CBConfig) : CircuitBreaker :=
  let c := config.getD CBDefaultConfig
  { failureThreshold := c.FailureThreshold
    timeout := c.Timeout
    resetTimeout := c.ResetTimeout
    successThreshold := c.SuccessThreshold
    state := CBState.Closed
    failureCount := 0
    lastFailure := 0
    trippedTime := 0
    successCount := 0
    requestCount := 0
    totalSuccess := 0
    totalFailure := 0
    serviceName := c.ServiceName }

/-- canExecute (circuitbreaker.go:133-151).  It may mutate the breaker
(Open to HalfOpen), so it returns the admission decision together with the
updated state.  `now` stands for the current time; `time.Since(trippedTime)
>= resetTimeout` is `now - trippedTime >= resetTimeout`. -/
def CircuitBreaker.canExecute (cb : CircuitBreaker) (now : Int) : Bool × CircuitBreaker :=
  match cb.state with
  | CBState.Closed => (true, cb)
  | CBState.Open =>
    if cb.resetTimeout ≤ now - cb.trippedTime then
      (true, { cb with state := CBState.HalfOpen, successCount := 0 })
    else
      (false, cb)
  | CBState.HalfOpen => (cb.successCount < cb.successThreshold, cb)

/-- updateState (circuitbreaker.go:154-193).  `failed` is whether the
protected function returned a non-nil error; `now` is the current time used
for `time.Now()`. -/
def CircuitBreaker.updateState (cb : CircuitBreaker) (failed : Bool) (now : Int) : CircuitBreaker :=
  let cb1 := { cb with requestCount := cb.requestCount + 1 }
  if failed then
    let cb2 := { cb1 with
      failureCount := cb1.failureCount + 1
      totalFailure := cb1.totalFailure + 1
      lastFailure := now }
    match cb2.state with
    | CBState.Closed =>
      if cb2.failureThreshold ≤ cb2.failureCount then
        { cb2 with state := CBState.Open, trippedTime := now }
      else
        cb2
    | CBState.HalfOpen => { cb2 with state := CBState.Open, trippedTime := now }
    | CBState.Open => cb2
  else
    let cb2 := { cb1 with totalSuccess := cb1.totalSuccess + 1 }
    match cb2.state with
    | CBState.Closed => { cb2 with failureCount := 0 }
    | CBState.HalfOpen =>
      let cb3 := { cb2 with successCount := cb2.successCount + 1 }
      if cb3.successThreshold ≤ cb3.successCount then
        { cb3 with state := CBState.Closed, failureCount := 0 }
      else
        cb3
    | CBState.Open => cb2

/-- Execute (circuitbreaker.go:106-130).  The protected function is embedded
by its outcome `fnErr : Option String` (none = success, some msg = the error
it returns).  Execute returns the error result of the call together with the
updated breaker.  A rejected call returns the distinguished error string and
never consults `fnErr`. -/
def CircuitBreaker.Execute (cb : CircuitBreaker) (fnErr : Option String) (now : Int) :
    Option String × CircuitBreaker :=
  let res := cb.canExecute now
  if res.1 then
    let cb2 := { res.2 with requestCount := res.2.requestCount + 1 }
    (fnErr, cb2.updateState fnErr.isSome now)
  else
    (some ("circuit breaker is open"), res.2)

/-- A sequence of Execute calls, each given by the protected function's
outcome and the current time at the call. -/
def CircuitBreaker.ExecuteSeq (cb : CircuitBreaker) (calls : List (Option String × Int)) :
    CircuitBreaker :=
  calls.foldl (fun b c => (b.Execute c.1 c.2).2) cb

/-! ### Circuit breaker lemmas -/

theorem CircuitBreaker.canExecute_requestCount (cb : CircuitBreaker) (now : Int) :
    (cb.canExecute now).2.requestCount = cb.requestCount := by
  unfold CircuitBreaker.canExecute
  rcases cb.state with _ | _ | _ <;> simp <;> split <;> simp

theorem CircuitBreaker.updateState_requestCount (cb : CircuitBreaker) (failed : Bool) (now : Int) :
    (cb.updateState failed now).requestCount = cb.requestCount + 1 := by
  unfold CircuitBreaker.updateState
  rcases failed with _ | _ <;> rcases cb.state with _ | _ | _ <;> simp <;> split <;> simp

/-- C1: a breaker with failureThreshold 5 and successThreshold 1: (a) from
Closed with a zero consecutive-failure count, five consecutive failing
Execute calls leave it Open; (b) from Closed, a single successful Execute
resets the consecutive-failure count to 0 and stays Closed; (c) from Open,
once at least resetTimeout has elapsed since the trip time, the next Execute
is admitted in HalfOpen (it returns the protected function's own result, not
the breaker-open error), a probe failure returns the breaker to Open with a
fresh trip time, and a probe success closes it. -/
theorem circuitBreaker_trip_reset_halfopen_cycle (cb : CircuitBreaker)
    (hft : cb.failureThreshold = 5) (hst : cb.successThreshold = 1) :
    (cb.state = CBState.Closed → cb.failureCount = 0 →
      ∀ (e1 e2 e3 e4 e5 : String) (t1 t2 t3 t4 t5 : Int),
        (cb.ExecuteSeq [(some e1, t1), (some e2, t2), (some e3, t3),
          (some e4, t4), (some e5, t5)]).state = CBState.Open)
    ∧ (cb.state = CBState.Closed → ∀ now : Int,
        (cb.Execute none now).2.failureCount = 0
        ∧ (cb.Execute none now).2.state = CBState.Closed)
    ∧ (∀ now : Int, cb.state = CBState.Open → cb.resetTimeout ≤ now - cb.trippedTime →
        ((cb.canExecute now).1 = true ∧ (cb.canExecute now).2.state = CBState.HalfOpen)
        ∧ (∀ fnErr : Option String, (cb.Execute fnErr now).1 = fnErr)
        ∧ (∀ e : String, (cb.Execute (some e) now).2.state = CBState.Open
            ∧ (cb.Execute (some e) now).2.trippedTime = now)
        ∧ (cb.Execute none now).2.state = CBState.Closed) := by
  obtain ⟨ft, tmo, rt, sth, s, fc, lf, tpt, sc, rc, tS, tF, sn⟩ := cb
  dsimp only at hft hst
  subst hft hst
  refine ⟨?_, ?_, ?_⟩
  · intro hs hfc e1 e2 e3 e4 e5 t1 t2 t3 t4 t5
    dsimp only at hs hfc
    subst hs hfc
    simp +decide [CircuitBreaker.ExecuteSeq, CircuitBreaker.Execute,
      CircuitBreaker.canExecute, CircuitBreaker.updateState]
  · intro hs now
    dsimp only at hs
    subst hs
    simp +decide [CircuitBreaker.Execute, CircuitBreaker.canExecute,
      CircuitBreaker.updateState]
  · intro now hs helapsed
    dsimp only at hs helapsed
    subst hs
    simp +decide [CircuitBreaker.Execute, CircuitBreaker.canExecute,
      CircuitBreaker.updateState, helapsed]

/-- Witness for C1: the default breaker (failureThreshold 5, successThreshold
1) trips to Open after five failing calls at concrete times. -/
theorem circuitBreaker_trip_reset_halfopen_cycle_witness :
    ((NewCircuitBreaker none).ExecuteSeq [(some ("e"), 0), (some ("e"), 1),
      (some ("e"), 2), (some ("e"), 3), (some ("e"), 4)]).state = CBState.Open :=
  (circuitBreaker_trip_reset_halfopen_cycle (NewCircuitBreaker none)
    (by decide) (by decide)).1 (by decide) (by decide) "e" "e" "e" "e" "e" 0 1 2 3 4

/-- C4: an Execute call rejected by the breaker (state Open before
resetTimeout has elapsed, or state HalfOpen with the probe budget exhausted)
returns the distinguished breaker-open error, leaves the whole breaker state
unchanged (in particular totalSuccess and totalFailure), and its result does
not depend on the protected function, which is therefore never invoked. -/
theorem circuitBreaker_rejected_call_no_sideeffects (cb : CircuitBreaker) (now : Int)
    (h : (cb.state = CBState.Open ∧ now - cb.trippedTime < cb.resetTimeout)
       ∨ (cb.state = CBState.HalfOpen ∧ cb.successThreshold ≤ cb.successCount)) :
    ∀ fnErr : Option String,
      cb.Execute fnErr now = (some ("circuit breaker is open"), cb) := by
  intro fnErr
  unfold CircuitBreaker.Execute CircuitBreaker.canExecute
  rcases h with ⟨hs, ht⟩ | ⟨hs, hc⟩
  · rw [hs]; simp [not_le.mpr ht]
  · rw [hs]; simp [not_lt.mpr hc]

/-- Witness for C4: a breaker tripped at time 0 with resetTimeout 30 rejects
a call at time 10 and is returned unchanged. -/
theorem circuitBreaker_rejected_call_no_sideeffects_witness :
    ((NewCircuitBreaker (some
        { FailureThreshold := 5, Timeout := 60, ResetTimeout := 30,
          SuccessThreshold := 1, ServiceName := "svc" })).ExecuteSeq
      [(some ("e"), 0), (some ("e"), 0), (some ("e"), 0), (some ("e"), 0),
       (some ("e"), 0)]).Execute none 10 =
    (some ("circuit breaker is open"),
      ((NewCircuitBreaker (some
        { FailureThreshold := 5, Timeout := 60, ResetTimeout := 30,
          SuccessThreshold := 1, ServiceName := "svc" })).ExecuteSeq
      [(some ("e"), 0), (some ("e"), 0), (some ("e"), 0), (some ("e"), 0),
       (some ("e"), 0)])) :=
  circuitBreaker_rejected_call_no_sideeffects _ 10 (Or.inl (by decide)) none

/-- C10: an admitted Execute call increases the cumulative requestCount by
exactly 2 (once in Execute before invoking the protected function, once more
inside updateState); a rejected call leaves requestCount unchanged. -/
theorem circuitBreaker_requestCount_double_increment (cb : CircuitBreaker)
    (fnErr : Option String) (now : Int) :
    ((cb.canExecute now).1 = true →
      (cb.Execute fnErr now).2.requestCount = cb.requestCount + 2)
    ∧ ((cb.canExecute now).1 = false →
      (cb.Execute fnErr now).2.requestCount = cb.requestCount) := by
  constructor <;> intro h <;>
    simp [CircuitBreaker.Execute, h, CircuitBreaker.updateState_requestCount,
      CircuitBreaker.canExecute_requestCount]
  ring

/-- Witness for C10: a fresh default breaker admits a call at time 0 and its
requestCount goes from 0 to 2. -/
theorem circuitBreaker_requestCount_double_increment_witness :
    ((NewCircuitBreaker none).canExecute 0).1 = true
    ∧ ((NewCircuitBreaker none).Execute none 0).2.requestCount =
        (NewCircuitBreaker none).requestCount + 2 :=
  ⟨by decide, (circuitBreaker_requestCount_double_increment
    (NewCircuitBreaker none) none 0).1 (by decide)⟩

/-! ## Sliding-window rate limiter (ratelimit/middleware.go) -/

/-- The SlidingWindowLimiter struct (middleware.go:86-91).  The per-key map
`records` is total with default value nil, matching Go map indexing. -/
structure SlidingWindowLimiter where
  limit : Int
  window : Int
  records : String → List Int

/-- NewSlidingWindowLimiter (middleware.go:94-100): the limit and window are
stored verbatim, with no validation. -/
def NewSlidingWindowLimiter (limit window : Int) : SlidingWindowLimiter :=
  { limit := limit, window := window, records := fun _ => [] }

/-- AllowWithKey (middleware.go:108-131): prune records not strictly after
`now - window` (`t.After(cutoff)` is strict, so a record exactly at the
boundary is expired), reject if the remaining count has reached the limit
(leaving the stored records untouched), otherwise append `now` to the pruned
records and accept. -/
def SlidingWindowLimiter.AllowWithKey (s : SlidingWindowLimiter) (key : String) (now : Int) :
    Bool × SlidingWindowLimiter :=
  let cutoff := now - s.window
  let validRecords := (s.records key).filter (fun t => decide (cutoff < t))
  if s.limit ≤ (validRecords.length : Int) then
    (false, s)
  else
    (true, { s with records := fun k =>
      if k = key then validRecords ++ [now] else s.records k })

/-- A sequence of AllowWithKey calls on one key at the given times, returning
how many were accepted together with the final limiter state. -/
def SlidingWindowLimiter.runCalls (s : SlidingWindowLimiter) (key : String) (times : List Int) :
    Nat × SlidingWindowLimiter :=
  match times with
  | [] => (0, s)
  | t :: rest =>
    let r := s.AllowWithKey key t
    let tail := r.2.runCalls key rest
    ((if r.1 then 1 else 0) + tail.1, tail.2)


/-- Counting invariant for the sliding-window limiter: if every call time
lies in the half-open interval from `lo` (inclusive) to `lo + window`
(exclusive), the number of accepted calls is bounded by the limit minus the
number of already-stored records at or after `lo` (clamped to the limit). -/
theorem SlidingWindowLimiter.runCalls_bound (key : String) (lo : Int) (times : List Int) :
    ∀ s : SlidingWindowLimiter,
      (∀ t ∈ times, lo ≤ t ∧ t < lo + s.window) →
      ((s.runCalls key times).1 : Int)
        ≤ s.limit - min (((s.records key).countP (fun u => decide (lo ≤ u)) : Nat) : Int) s.limit := by
  induction times with
  | nil =>
    intro s _
    have h1 : min (((s.records key).countP (fun u => decide (lo ≤ u)) : Nat) : Int) s.limit
        ≤ s.limit := min_le_right _ _
    simp only [SlidingWindowLimiter.runCalls]
    omega
  | cons t rest ih =>
    intro s h
    have ht : lo ≤ t ∧ t < lo + s.window := h t (List.mem_cons_self t rest)
    have hcut : ∀ u : Int, lo ≤ u → t - s.window < u := by
      intro u hu
      omega
    have hcount : ((s.records key).filter (fun u => decide (t - s.window < u))).countP
        (fun u => decide (lo ≤ u)) = (s.records key).countP (fun u => decide (lo ≤ u)) := by
      rw [List.countP_filter]
      refine List.countP_congr ?_
      intro u _
      by_cases hu : lo ≤ u
      · simp [hu, hcut u hu]
      · simp [hu]
    have hrest : ∀ u ∈ rest, lo ≤ u ∧ u < lo + s.window :=
      fun u hu => h u (List.mem_cons_of_mem t hu)
    simp only [SlidingWindowLimiter.runCalls, SlidingWindowLimiter.AllowWithKey]
    by_cases hC : s.limit ≤
        ((((s.records key).filter (fun u => decide (t - s.window < u))).length : Nat) : Int)
    · -- rejected: the state is unchanged
      simp only [if_pos hC]
      simpa using ih s hrest
    · -- accepted
      push_neg at hC
      have hAle : (s.records key).countP (fun u => decide (lo ≤ u))
          ≤ ((s.records key).filter (fun u => decide (t - s.window < u))).length := by
        rw [← hcount]
        exact List.countP_le_length _
      have hAltL : (((s.records key).countP (fun u => decide (lo ≤ u)) : Nat) : Int) < s.limit :=
        lt_of_le_of_lt (by exact_mod_cast hAle) hC
      have hsingle : List.countP (fun u => decide (lo ≤ u)) [t] = 1 := by
        simp [ht.1]
      have hnext := ih { s with records :=
        (fun k => if k = key then
          (s.records key).filter (fun u => decide (t - s.window < u)) ++ [t]
          else s.records k) } hrest
      dsimp only at hnext
      rw [if_pos rfl, List.countP_append, hcount, hsingle] at hnext
      simp only [if_neg (not_le.mpr hC)]
      have hmin1 : min ((((s.records key).countP (fun u => decide (lo ≤ u)) : Nat) : Int) + 1)
          s.limit = (((s.records key).countP (fun u => decide (lo ≤ u)) : Nat) : Int) + 1 :=
        min_eq_left (by omega)
      have hmin2 : min (((s.records key).countP (fun u => decide (lo ≤ u)) : Nat) : Int)
          s.limit = (((s.records key).countP (fun u => decide (lo ≤ u)) : Nat) : Int) :=
        min_eq_left (by omega)
      rw [hmin2]
      push_cast at hnext ⊢
      rw [hmin1] at hnext
      omega

/-- C2: (a) AllowWithKey accepts iff strictly fewer than `limit` stored
accept timestamps lie within the window ending at `now`, a timestamp exactly
at `now - window` counting as expired (the filter keeps only strictly later
timestamps); (b) consequently, for any sequence of calls on one key whose
times all lie inside one window (a half-open interval of length `window`),
at most `limit` of them are accepted, regardless of spacing and of any
records already stored for the key. -/
theorem slidingWindow_accepts_iff_below_limit_and_at_most_limit :
    (∀ (s : SlidingWindowLimiter) (key : String) (now : Int),
      (s.AllowWithKey key now).1 = true ↔
        ((((s.records key).filter (fun t => decide (now - s.window < t))).length : Nat) : Int)
          < s.limit)
    ∧ (∀ (s : SlidingWindowLimiter) (key : String) (lo : Int) (times : List Int),
        0 ≤ s.limit →
        (∀ t ∈ times, lo ≤ t ∧ t < lo + s.window) →
        ((s.runCalls key times).1 : Int) ≤ s.limit) := by
  constructor
  · intro s key now
    unfold SlidingWindowLimiter.AllowWithKey
    by_cases hC : s.limit ≤
        ((((s.records key).filter (fun t => decide (now - s.window < t))).length : Nat) : Int)
    · simp only [if_pos hC]
      simpa using hC
    · simp only [if_neg hC]
      push_neg at hC
      simpa using hC
  · intro s key lo times hL h
    have hb := SlidingWindowLimiter.runCalls_bound key lo times s h
    have hmin : 0 ≤ min (((s.records key).countP (fun u => decide (lo ≤ u)) : Nat) : Int)
        s.limit := le_min (by positivity) hL
    omega

/-- Witness for C2: a fresh limiter with limit 2 and window 10 accepts its
first call, and over four calls inside one window accepts at most 2. -/
theorem slidingWindow_accepts_iff_below_limit_and_at_most_limit_witness :
    (((NewSlidingWindowLimiter 2 10).AllowWithKey "k" 0).1 = true ↔
      (((((NewSlidingWindowLimiter 2 10).records "k").filter
        (fun t => decide (0 - (NewSlidingWindowLimiter 2 10).window < t))).length : Nat) : Int)
        < (NewSlidingWindowLimiter 2 10).limit)
    ∧ (((NewSlidingWindowLimiter 2 10).runCalls "k" [0, 1, 2, 9]).1 : Int)
        ≤ (NewSlidingWindowLimiter 2 10).limit :=
  ⟨slidingWindow_accepts_iff_below_limit_and_at_most_limit.1
      (NewSlidingWindowLimiter 2 10) "k" 0,
   slidingWindow_accepts_iff_below_limit_and_at_most_limit.2
      (NewSlidingWindowLimiter 2 10) "k" 0 [0, 1, 2, 9] (by decide) (by decide)⟩

/-! ## Values and JSON round-trip (encoding/json as used by the caches) -/

/-- A cached Go value (`interface{}`): the cases the cache layers actually
exchange are strings (including raw serialized payloads and the negative
sentinel) and numbers. -/
inductive GoVal where
  | str : String → GoVal
  | num : Int → GoVal
deriving DecidableEq, Repr

/-- JSON string-escaping of quote and backslash characters. -/
def jsonEscape : List Char → List Char
  | [] => []
  | c :: rest =>
    if c = '"' ∨ c = '\\' then '\\' :: c :: jsonEscape rest
    else c :: jsonEscape rest

/-- Inverse of `jsonEscape`; fails on an unescaped quote. -/
def jsonUnescape : List Char → Option (List Char)
  | [] => some []
  | '\\' :: c :: rest => (jsonUnescape rest).map (fun l => c :: l)
  | c :: rest =>
    if c = '"' then none
    else (jsonUnescape rest).map (fun l => c :: l)

/-- json.Marshal on the embedded values: strings are quoted and escaped,
numbers print in decimal. -/
def jsonMarshal : GoVal → String
  | GoVal.str s => String.mk ('"' :: (jsonEscape s.data ++ ['"']))
  | GoVal.num n => toString n

/-- json.Unmarshal into an untyped destination: a quoted payload decodes to
a string, otherwise a decimal payload decodes to a number. -/
def jsonUnmarshal (data : String) : Option GoVal :=
  match data.data with
  | '"' :: rest =>
    match rest.getLast? with
    | some '"' => (jsonUnescape rest.dropLast).map (fun l => GoVal.str (String.mk l))
    | _ => none
  | _ => data.toInt?.map GoVal.num

/-! ## Local LRU cache (cache/local.go) -/

/-- cacheEntry (local.go:20-24). -/
structure CacheEntry where
  key : String
  value : GoVal
  expiresAt : Int
deriving DecidableEq, Repr

/-- The LocalCache struct (local.go:11-17).  The `cache` map and `evictList`
are kept in sync by the Go code; the model keeps the recency list (most
recently used first) and treats the map as its key-indexed view. -/
structure LocalCache where
  capacity : Int
  ttl : Int
  evictList : List CacheEntry
deriving DecidableEq, Repr

/-- Cache error results: `ErrKeyNotFound` (local.go:36) and a serialization
failure from json.Marshal/Unmarshal. -/
inductive CacheErr where
  | keyNotFound : CacheErr
  | serdeErr : CacheErr
deriving DecidableEq, Repr

/-- NewLocalCache (local.go:39-46): capacity and ttl are stored verbatim,
with no validation. -/
def NewLocalCache (capacity ttl : Int) : LocalCache :=
  { capacity := capacity, ttl := ttl, evictList := [] }

/-- Get (local.go:49-81): a missing key is ErrKeyNotFound; an entry strictly
past its expiry is removed and reported as ErrKeyNotFound; otherwise the
entry moves to the front of the recency list and its value is returned
through a json.Marshal / json.Unmarshal round-trip into the destination. -/
def LocalCache.Get (l : LocalCache) (key : String) (now : Int) :
    Except CacheErr GoVal × LocalCache :=
  match l.evictList.find? (fun e => e.key == key) with
  | none => (Except.error CacheErr.keyNotFound, l)
  | some entry =>
    if entry.expiresAt < now then
      (Except.error CacheErr.keyNotFound,
        { l with evictList := l.evictList.eraseP (fun e => e.key == key) })
    else
      let moved := { l with evictList := entry :: l.evictList.eraseP (fun e => e.key == key) }
      match jsonUnmarshal (jsonMarshal entry.value) with
      | some v => (Except.ok v, moved)
      | none => (Except.error CacheErr.serdeErr, moved)

/-- Set (local.go:84-113): an existing key is updated in place and moved to
the front; otherwise, when the list has reached capacity the least recently
used entry (the back of the list) is evicted (local.go:154-159), and the new
entry is pushed to the front with expiry `now + expiration`. -/
def LocalCache.Set (l : LocalCache) (key : String) (value : GoVal) (expiration now : Int) :
    LocalCache :=
  let entry : CacheEntry := { key := key, value := value, expiresAt := now + expiration }
  match l.evictList.find? (fun e => e.key == key) with
  | some _ => { l with evictList := entry :: l.evictList.eraseP (fun e => e.key == key) }
  | none =>
    let l1 := if l.capacity ≤ (l.evictList.length : Int) then
        { l with evictList := l.evictList.dropLast }
      else l
    { l1 with evictList := entry :: l1.evictList }

/-- Delete (local.go:116-125): removes the entry when present. -/
def LocalCache.Delete (l : LocalCache) (key : String) : LocalCache :=
  { l with evictList := l.evictList.eraseP (fun e => e.key == key) }

/-- Exists (local.go:128-151): like Get but without touching recency; an
expired entry is removed and reported absent. -/
def LocalCache.Exists (l : LocalCache) (key : String) (now : Int) : Bool × LocalCache :=
  match l.evictList.find? (fun e => e.key == key) with
  | none => (false, l)
  | some entry =>
    if entry.expiresAt < now then
      (false, { l with evictList := l.evictList.eraseP (fun e => e.key == key) })
    else
      (true, l)

/-- One operation of the local cache API. -/
inductive LCOp where
  | get : String → Int → LCOp
  | set : String → GoVal → Int → Int → LCOp
  | del : String → LCOp
  | exist : String → Int → LCOp
deriving DecidableEq, Repr

def LocalCache.applyOp (l : LocalCache) : LCOp → LocalCache
  | LCOp.get key now => (l.Get key now).2
  | LCOp.set key v exp now => l.Set key v exp now
  | LCOp.del key => l.Delete key
  | LCOp.exist key now => (l.Exists key now).2

def LocalCache.applyOps (l : LocalCache) (ops : List LCOp) : LocalCache :=
  ops.foldl LocalCache.applyOp l

/-! ### Local cache size lemmas -/

theorem LocalCache.applyOp_capacity (l : LocalCache) (op : LCOp) :
    (l.applyOp op).capacity = l.capacity := by
  rcases op with ⟨key, now⟩ | ⟨key, v, e, now⟩ | ⟨key⟩ | ⟨key, now⟩
  · simp only [LocalCache.applyOp, LocalCache.Get]
    rcases hf : l.evictList.find? (fun e => e.key == key) with _ | entry
    · simp [hf]
    · simp only [hf]
      split
      · rfl
      · rcases hu : jsonUnmarshal (jsonMarshal entry.value) with _ | v <;> simp [hu]
  · simp only [LocalCache.applyOp, LocalCache.Set]
    rcases hf : l.evictList.find? (fun e => e.key == key) with _ | entry
    · simp only [hf]
      split <;> rfl
    · simp [hf]
  · simp [LocalCache.applyOp, LocalCache.Delete]
  · simp only [LocalCache.applyOp, LocalCache.Exists]
    rcases hf : l.evictList.find? (fun e => e.key == key) with _ | entry
    · simp [hf]
    · simp only [hf]
      split <;> rfl

theorem LocalCache.applyOp_length (l : LocalCache) (op : LCOp)
    (hcap : 1 ≤ l.capacity) (hlen : (l.evictList.length : Int) ≤ l.capacity) :
    ((l.applyOp op).evictList.length : Int) ≤ l.capacity := by
  rcases op with ⟨key, now⟩ | ⟨key, v, e, now⟩ | ⟨key⟩ | ⟨key, now⟩
  · -- Get
    rcases hf : l.evictList.find? (fun e => e.key == key) with _ | entry
    · simpa [LocalCache.applyOp, LocalCache.Get, hf] using hlen
    · have hmem := List.mem_of_find?_eq_some hf
      have hp := List.find?_some hf
      have hle := @List.length_eraseP_add_one _ (fun e => e.key == key) l.evictList entry hmem hp
      simp only [LocalCache.applyOp, LocalCache.Get, hf]
      split
      · simp only
        omega
      · rcases hu : jsonUnmarshal (jsonMarshal entry.value) with _ | v <;>
          simp only [hu, List.length_cons] <;> omega
  · -- Set
    rcases hf : l.evictList.find? (fun e => e.key == key) with _ | entry
    · simp only [LocalCache.applyOp, LocalCache.Set, hf]
      have hdl := List.length_dropLast l.evictList
      split
      · rename_i hfull
        simp only [List.length_cons]
        omega
      · rename_i hroom
        push_neg at hroom
        simp only [List.length_cons]
        omega
    · have hmem := List.mem_of_find?_eq_some hf
      have hp := List.find?_some hf
      have hle := @List.length_eraseP_add_one _ (fun e => e.key == key) l.evictList entry hmem hp
      simp only [LocalCache.applyOp, LocalCache.Set, hf, List.length_cons]
      omega
  · -- Delete
    have h : (l.evictList.eraseP (fun e => e.key == key)).length ≤ l.evictList.length :=
      (List.eraseP_sublist _).length_le
    simp only [LocalCache.applyOp, LocalCache.Delete]
    omega
  · -- Exists
    rcases hf : l.evictList.find? (fun e => e.key == key) with _ | entry
    · simpa [LocalCache.applyOp, LocalCache.Exists, hf] using hlen
    · have h : (l.evictList.eraseP (fun e => e.key == key)).length ≤ l.evictList.length :=
        (List.eraseP_sublist _).length_le
      simp only [LocalCache.applyOp, LocalCache.Exists, hf]
      split
      · simp only
        omega
      · simpa using hlen

theorem LocalCache.applyOps_length (K : Int) (hK : 1 ≤ K) (ops : List LCOp) :
    ∀ l : LocalCache, l.capacity = K → (l.evictList.length : Int) ≤ K →
      ((l.applyOps ops).evictList.length : Int) ≤ K := by
  induction ops with
  | nil =>
    intro l _ hl
    simpa [LocalCache.applyOps] using hl
  | cons op rest ih =>
    intro l hc hl
    have hcap1 : 1 ≤ l.capacity := by rw [hc]; exact hK
    have hlen1 : (l.evictList.length : Int) ≤ l.capacity := by rw [hc]; exact hl
    have h1 := LocalCache.applyOp_length l op hcap1 hlen1
    have h2 := LocalCache.applyOp_capacity l op
    have h3 : ((l.applyOp op).evictList.length : Int) ≤ K := by rw [← hc]; exact h1
    have h4 : (l.applyOp op).capacity = K := by rw [h2, hc]
    simpa [LocalCache.applyOps] using ih (l.applyOp op) h4 h3

/-- C5 counterexample: a LocalCache constructed with capacity 0 stores one
entry after a single Set (local.go:84-113 evicts from an empty list and then
inserts unconditionally), so its size exceeds the configured capacity. -/
theorem localCache_capacity_zero_counterexample :
    ((((NewLocalCache 0 100).Set "a" (GoVal.str "v") 10 0).evictList.length : Int)
      > (NewLocalCache 0 100).capacity) := by decide

/-- C5 amended: for every LocalCache constructed with capacity K at least 1,
no sequence of Get/Set/Delete/Exists operations makes the number of stored
entries exceed K. -/
theorem localCache_size_never_exceeds_capacity (K ttl : Int) (hK : 1 ≤ K) (ops : List LCOp) :
    (((NewLocalCache K ttl).applyOps ops).evictList.length : Int) ≤ K :=
  LocalCache.applyOps_length K hK ops (NewLocalCache K ttl) rfl
    (by simp only [NewLocalCache, List.length_nil, Nat.cast_zero]; omega)

/-- Witness for the amended C5: capacity 1, two inserts, size stays at 1. -/
theorem localCache_size_never_exceeds_capacity_witness :
    ((((NewLocalCache 1 100).applyOps [LCOp.set "a" (GoVal.str "x") 10 0,
        LCOp.set "b" (GoVal.str "y") 10 1]).evictList.length : Int) ≤ 1) :=
  localCache_size_never_exceeds_capacity 1 100 (by decide) _

/-! ## Redis remote tier (cache/redis.go) and multi-level cache -/

/-- The RedisCache struct (redis.go:13-22) together with the contents of the
external Redis store, modelled as a map from key to the stored payload
(`none` = redis.Nil).  The TTLs select server-side expiry on the external
store and are kept as configuration. -/
structure RedisCache where
  emptyExpiration : Int
  defaultExpiration : Int
  store : String → Option String

/-- NewRedisCache (redis.go:25-37) with a live client: empty-value TTL one
minute, default TTL one hour (seconds), paired here with an empty store. -/
def NewRedisCache : RedisCache :=
  { emptyExpiration := 60, defaultExpiration := 3600, store := fun _ => none }

/-- RedisCache.Set (redis.go:72-101): a nil value stores the reserved
sentinel payload with the short empty-value TTL; otherwise the value is
json.Marshal-ed (with the default TTL substituted when expiration <= 0). -/
def RedisCache.Set (r : RedisCache) (key : String) (value : Option GoVal)
    (expiration : Int) : RedisCache :=
  match value with
  | none => { r with store := fun k => if k = key then some ("<empty>") else r.store k }
  | some v => { r with store := fun k => if k = key then some (jsonMarshal v) else r.store k }

/-- The MultiLevelCache struct: L1 local cache (capacity 1000, five-minute
TTL) over the L2 Redis tier. -/
structure MultiLevelCache where
  l1Cache : LocalCache
  l2Cache : RedisCache

/-- NewMultiLevelCache with a non-nil Redis client. -/
def NewMultiLevelCache (r : RedisCache) : MultiLevelCache :=
  { l1Cache := NewLocalCache 1000 300, l2Cache := r }

/-- Result of a MultiLevelCache.Get: the returned value or error, the
updated cache, and whether the remote tier was consulted. -/
structure MLCGetResult where
  result : Except CacheErr GoVal
  cache : MultiLevelCache
  usedL2 : Bool

/-- MultiLevelCache.Get: probe L1 first (a hit short-circuits L2); on an L1
miss read the raw payload from the L2 client; redis.Nil is NotFound; the
sentinel payload is NotFound and is additionally stored into L1 (as a plain
string value) with a one-minute TTL; otherwise the payload is unmarshalled
into the destination and the raw payload string is stored into L1 with a
one-minute TTL. -/
def MultiLevelCache.Get (m : MultiLevelCache) (key : String) (now : Int) : MLCGetResult :=
  let r1 := m.l1Cache.Get key now
  match r1.1 with
  | Except.ok v =>
    { result := Except.ok v, cache := { m with l1Cache := r1.2 }, usedL2 := false }
  | Except.error _ =>
    match m.l2Cache.store key with
    | none =>
      { result := Except.error CacheErr.keyNotFound
        cache := { m with l1Cache := r1.2 }
        usedL2 := true }
    | some val =>
      if val = "<empty>" then
        { result := Except.error CacheErr.keyNotFound
          cache := { m with l1Cache := r1.2.Set key (GoVal.str "<empty>") 60 now }
          usedL2 := true }
      else
        match jsonUnmarshal val with
        | none =>
          { result := Except.error CacheErr.serdeErr
            cache := { m with l1Cache := r1.2 }
            usedL2 := true }
        | some v =>
          { result := Except.ok v
            cache := { m with l1Cache := r1.2.Set key (GoVal.str val) 60 now }
            usedL2 := true }

/-- The remote store once the key has been marked absent through
RedisCache.Set with a nil value. -/
def mlcNegRemote : RedisCache := NewRedisCache.Set "user:1" none 0

def mlcNegGet1 : MLCGetResult := (NewMultiLevelCache mlcNegRemote).Get "user:1" 0

def mlcNegGet2 : MLCGetResult := mlcNegGet1.cache.Get "user:1" 1

/-- C3 (code bug): once the key has been negatively cached — the first Get
finds the reserved sentinel in the remote tier, reports NotFound and
populates the local tier with the sentinel — the next Get is indeed served
from the local tier alone (no remote round-trip), but it does not return
NotFound: the L1 hit path never re-checks the sentinel, so the sentinel
string itself is returned as a successful value. -/
theorem multiLevelCache_negative_cache_second_get_not_notfound :
    mlcNegGet1.result = Except.error CacheErr.keyNotFound
    ∧ mlcNegGet1.usedL2 = true
    ∧ mlcNegGet2.usedL2 = false
    ∧ mlcNegGet2.result = Except.ok (GoVal.str "<empty>")
    ∧ mlcNegGet2.result ≠ Except.error CacheErr.keyNotFound := by
  refine ⟨rfl, rfl, rfl, rfl, ?_⟩
  intro h
  exact Except.noConfusion
    ((rfl : mlcNegGet2.result = Except.ok (GoVal.str "<empty>")).symm.trans h)

/-- The remote store holding a real value for the key, written through
RedisCache.Set, with the key absent from the local tier. -/
def mlcRepopRemote : RedisCache := NewRedisCache.Set "greeting" (some (GoVal.str "hello")) 0

def mlcRepopGet1 : MLCGetResult := (NewMultiLevelCache mlcRepopRemote).Get "greeting" 0

def mlcRepopGet2 : MLCGetResult := mlcRepopGet1.cache.Get "greeting" 1

/-- C8 (code bug): with the value only in the remote tier, the first Get
serves it from there (here the string value hello) and repopulates the local
tier — but it stores the raw serialized payload instead of the decoded
value.  The immediately following Get is a local-tier hit (no remote
round-trip) yet returns the doubly-encoded string, not the value the first
Get returned. -/
theorem multiLevelCache_repopulated_read_differs :
    mlcRepopGet1.result = Except.ok (GoVal.str "hello")
    ∧ mlcRepopGet1.usedL2 = true
    ∧ mlcRepopGet2.usedL2 = false
    ∧ mlcRepopGet2.result = Except.ok (GoVal.str "\"hello\"")
    ∧ mlcRepopGet2.result ≠ mlcRepopGet1.result := by
  refine ⟨rfl, rfl, rfl, rfl, ?_⟩
  intro h
  have h2 : GoVal.str "\"hello\"" = GoVal.str "hello" :=
    Except.ok.inj ((rfl : mlcRepopGet2.result = Except.ok (GoVal.str "\"hello\"")).symm.trans
      (h.trans (rfl : mlcRepopGet1.result = Except.ok (GoVal.str "hello"))))
  have h3 : ("\"hello\"" : String) = "hello" := GoVal.str.inj h2
  exact absurd h3 (by decide)

/-! ## Load balancer (loadbalancer.go) -/

/-- ServiceInstance (loadbalancer.go:59-65). -/
structure ServiceInstance where
  Address : String
  Weight : Int
  Connections : Int
  LastActive : Int
  Status : String
deriving DecidableEq, Repr, Inhabited

/-- The health filter inlined in GetServiceWithStrategy
(loadbalancer.go:117-122): instances whose Status is the string active or
the empty string are kept. -/
def healthyInstances (instances : List ServiceInstance) : List ServiceInstance :=
  instances.filter (fun i => i.Status == "active" || i.Status == "")

/-- GetServiceWithStrategy (loadbalancer.go:107-139), with the strategy as a
selection function over the filtered instances.  The connection-count
increment mutates only the local copy `selected` in the Go code and does not
change the service map, so it is not part of the result. -/
def GetServiceWithStrategy (serviceMap : String → Option (List ServiceInstance))
    (serviceName : String) (strategy : List ServiceInstance → ServiceInstance) :
    Except String String :=
  match serviceMap serviceName with
  | none => Except.error ("service not found: " ++ serviceName)
  | some instances =>
    if instances.length = 0 then
      Except.error ("service not found: " ++ serviceName)
    else
      let healthy := healthyInstances instances
      if healthy.length = 0 then
        Except.error ("no healthy instances for service: " ++ serviceName)
      else
        Except.ok (strategy healthy).Address

/-- Two's-complement wrap of int32 arithmetic, as performed by
atomic.AddInt32. -/
def wrap32 (n : Int) : Int := (n + 2147483648) % 4294967296 - 2147483648

/-- Go slice indexing `instances[i]`: defined for 0 <= i < len, a runtime
panic (modelled as none) otherwise. -/
def goIndex (l : List ServiceInstance) (i : Int) : Option ServiceInstance :=
  if h : 0 ≤ i ∧ i.toNat < l.length then some (l.get ⟨i.toNat, h.2⟩) else none

/-- The round-robin key (loadbalancer.go:172-176): the concatenation of the
instance addresses, each followed by a comma. -/
def rrKey (instances : List ServiceInstance) : String :=
  instances.foldl (fun k i => k ++ i.Address ++ ",") ""

/-- RoundRobinStrategy.Select (loadbalancer.go:171-192) over the shared
index map of int32 counters: a missing key starts a fresh counter at 0;
atomic.AddInt32 increments with int32 wrap-around and returns the new value;
the selected position is (currentIndex-1) % len with the Go `%`, which
truncates toward zero and is therefore negative for a negative dividend.
Returns the selected instance (none = index out of range panic) and the
updated index map. -/
def RoundRobinSelect (indexMap : String → Option Int) (instances : List ServiceInstance) :
    Option ServiceInstance × (String → Option Int) :=
  let key := rrKey instances
  let c := (indexMap key).getD 0
  let currentIndex := wrap32 (c + 1)
  let idx := Int.tmod (currentIndex - 1) (instances.length : Int)
  (goIndex instances idx, fun k => if k = key then some currentIndex else indexMap k)

def rrInstA : ServiceInstance :=
  { Address := "a", Weight := 1, Connections := 0, LastActive := 0, Status := "active" }

def rrInstB : ServiceInstance :=
  { Address := "b", Weight := 1, Connections := 0, LastActive := 0, Status := "active" }

/-- C9 counterexample: with 2^31 - 1 prior selections recorded in the shared
int32 counter for the two-instance list [a, b], the next AddInt32 wraps to
-2^31, the computed index (currentIndex-1) % 2 is -1, and Select indexes out
of bounds (a Go runtime panic). -/
theorem roundRobin_overflow_out_of_bounds_counterexample :
    (RoundRobinSelect (fun k => if k = "a,b," then some 2147483647 else none)
      [rrInstA, rrInstB]).1 = none := by decide

/-- C9 amended: whenever the incremented shared int32 counter is still
positive — in particular for fewer than 2^31 - 1 prior selections on the
key since it was created — the index (currentIndex-1) % len is a valid
index into a non-empty instance list, and Select returns an instance; once
the counter wraps to a non-positive value the truncated Go remainder can be
negative and Select panics out of bounds. -/
theorem roundRobin_positive_counter_in_bounds (indexMap : String → Option Int)
    (instances : List ServiceInstance) (hne : instances ≠ [])
    (hc : 1 ≤ wrap32 ((indexMap (rrKey instances)).getD 0 + 1)) :
    ((RoundRobinSelect indexMap instances).1).isSome = true := by
  unfold RoundRobinSelect
  dsimp only
  have hlen : 0 < (instances.length : Int) := by
    have := List.length_pos.mpr hne
    exact_mod_cast this
  have h0 : 0 ≤ wrap32 ((indexMap (rrKey instances)).getD 0 + 1) - 1 := by omega
  have htm : Int.tmod (wrap32 ((indexMap (rrKey instances)).getD 0 + 1) - 1)
      (instances.length : Int)
      = (wrap32 ((indexMap (rrKey instances)).getD 0 + 1) - 1) % (instances.length : Int) :=
    Int.tmod_eq_emod h0 (le_of_lt hlen)
  have hnn : 0 ≤ (wrap32 ((indexMap (rrKey instances)).getD 0 + 1) - 1)
      % (instances.length : Int) := Int.emod_nonneg _ (by omega)
  have hlt : (wrap32 ((indexMap (rrKey instances)).getD 0 + 1) - 1)
      % (instances.length : Int) < (instances.length : Int) :=
    Int.emod_lt_of_pos _ hlen
  rw [goIndex, htm]
  rw [dif_pos]
  · rfl
  · constructor
    · exact hnn
    · omega

/-- Witness for the amended C9: a fresh counter on a one-instance list is in
bounds. -/
theorem roundRobin_positive_counter_in_bounds_witness :
    ((RoundRobinSelect (fun _ => none) [rrInstA]).1).isSome = true :=
  roundRobin_positive_counter_in_bounds (fun _ => none) [rrInstA] (by decide) (by decide)

def emptyStatusInstance : ServiceInstance :=
  { Address := "10.0.0.1:80", Weight := 1, Connections := 0, LastActive := 0, Status := "" }

def unhealthyInstance : ServiceInstance :=
  { Address := "10.0.0.2:80", Weight := 1, Connections := 0, LastActive := 0,
    Status := "unhealthy" }

/-- C6 counterexample: an instance whose health status is the empty string
(not the string active) passes the filter and is handed to — and selected
by — the strategy, instead of the call failing with the no-healthy-instances
error. -/
theorem loadBalancer_empty_status_selected_counterexample :
    (∃ i ∈ healthyInstances [emptyStatusInstance], ¬ i.Status = "active")
    ∧ GetServiceWithStrategy
        (fun n => if n = "svc" then some [emptyStatusInstance] else none) "svc"
        (fun l => l.headI) = Except.ok ("10.0.0.1:80") := by
  refine ⟨⟨emptyStatusInstance, by decide, by decide⟩, rfl⟩

/-- C6 amended: the instance list handed to the selection strategy contains
only instances whose status is the string active or the empty string (the
filter treats an empty status as healthy); when the service exists with a
non-empty instance list but no instance passes that filter, the call fails
with the no-healthy-instances error instead of selecting one.  Statuses
written by refreshServices and HealthCheck are always active or unhealthy,
so on states the program itself produces the handed list is all-active. -/
theorem loadBalancer_strategy_gets_only_active_or_empty_status :
    (∀ instances : List ServiceInstance, ∀ i ∈ healthyInstances instances,
      i.Status = "active" ∨ i.Status = "")
    ∧ (∀ (serviceMap : String → Option (List ServiceInstance)) (serviceName : String)
        (strategy : List ServiceInstance → ServiceInstance)
        (instances : List ServiceInstance),
        serviceMap serviceName = some instances → instances.length ≠ 0 →
        healthyInstances instances = [] →
        GetServiceWithStrategy serviceMap serviceName strategy =
          Except.error ("no healthy instances for service: " ++ serviceName)) := by
  constructor
  · intro instances i hi
    have hp := List.of_mem_filter hi
    simpa using hp
  · intro m serviceName strategy instances hm hlen hhe
    simp [GetServiceWithStrategy, hm, hlen, hhe]

/-- Witness for the amended C6: a service whose only instance is unhealthy
yields the no-healthy-instances error. -/
theorem loadBalancer_strategy_gets_only_active_or_empty_status_witness :
    GetServiceWithStrategy (fun n => if n = "svc" then some [unhealthyInstance] else none)
      "svc" (fun l => l.headI) =
      Except.error ("no healthy instances for service: " ++ "svc") :=
  loadBalancer_strategy_gets_only_active_or_empty_status.2
    (fun n => if n = "svc" then some [unhealthyInstance] else none) "svc"
    (fun l => l.headI) [unhealthyInstance] (by decide) (by decide) (by decide)

/-! ## Constructor validation (C7) -/

/-- A config with zero and negative thresholds and intervals. -/
def invalidCBConfig : CBConfig :=
  { FailureThreshold := 0
    Timeout := -1
    ResetTimeout := -1
    SuccessThreshold := 0
    ServiceName := "svc" }

/-- C7 counterexample: constructing all three primitives with zero or
negative thresholds, capacities, limits and intervals succeeds and stores
the invalid values verbatim — nothing fails fast at construction time. -/
theorem constructors_accept_invalid_config_counterexample :
    (NewLocalCache 0 (-1)).capacity = 0 ∧ (NewLocalCache 0 (-1)).ttl = -1
    ∧ (NewSlidingWindowLimiter 0 (-5)).limit = 0
    ∧ (NewSlidingWindowLimiter 0 (-5)).window = -5
    ∧ (NewCircuitBreaker (some invalidCBConfig)).failureThreshold = 0
    ∧ (NewCircuitBreaker (some invalidCBConfig)).resetTimeout = -1 :=
  ⟨rfl, rfl, rfl, rfl, rfl, rfl⟩

/-- C7 amended: none of the three constructors validates its configuration:
every capacity, ttl, limit, window, threshold and timeout — zero and
negative values included — is accepted and stored verbatim, and construction
never fails; the only fallback is NewCircuitBreaker substituting the
documented default configuration for a nil config. -/
theorem constructors_store_config_verbatim_never_fail :
    (∀ capacity ttl : Int, (NewLocalCache capacity ttl).capacity = capacity
      ∧ (NewLocalCache capacity ttl).ttl = ttl)
    ∧ (∀ limit window : Int, (NewSlidingWindowLimiter limit window).limit = limit
      ∧ (NewSlidingWindowLimiter limit window).window = window)
    ∧ (∀ c : CBConfig, (NewCircuitBreaker (some c)).failureThreshold = c.FailureThreshold
      ∧ (NewCircuitBreaker (some c)).resetTimeout = c.ResetTimeout
      ∧ (NewCircuitBreaker (some c)).successThreshold = c.SuccessThreshold
      ∧ (NewCircuitBreaker (some c)).timeout = c.Timeout)
    ∧ NewCircuitBreaker none = NewCircuitBreaker (some CBDefaultConfig) :=
  ⟨fun _ _ => ⟨rfl, rfl⟩, fun _ _ => ⟨rfl, rfl⟩, fun _ => ⟨rfl, rfl, rfl, rfl⟩, rfl⟩
